import Mathlib

/-!
CosmoScan — Catalog Filter Engine, shallow embedding.

A Lean model of the filtering/aggregation logic of
`src/app/components/CosmoScanApp.tsx` (single-file React catalog browser):

* data model: `Review`, `Ingredient`, `Product` (TS types; the `role` field
  is modelled as `String` because the seed data stores the unlisted tag
  `"solvent"` via `as any`, so at runtime the field holds arbitrary strings);
* `averageRating`: arithmetic mean of review ratings, `0` on the empty list
  (JS numbers are modelled as `ℚ`; all ratings in play are integral);
* the `filtered` memo: text / category / rating predicates followed by an
  in-place stable sort descending by average rating (`Array.prototype.sort`
  is stable per the ECMAScript spec; we model it with `List.insertionSort`,
  which is stable for the non-strict relation used here);
* `categories`, `focusedProduct`, `roleLabel`, the debounce timer of the
  query field, and the seed catalog `MOCK_PRODUCTS`.

String operations (`toLowerCase`, `trim`, `includes`) are modelled on the
character list underlying `String`; `Char.toLower` agrees with JS
`toLowerCase` on the basic-latin range, which covers every string occurring
in the repository.
-/

namespace CosmoScan

/-- Record `Review`: author, numeric rating (unvalidated), comment. -/
structure Review where
  user : String
  rating : ℚ
  comment : String
deriving DecidableEq, Repr

/-- Record `Ingredient`.  Field `role` is a string at runtime (the TS enumeration is
erased and the seed data bypasses it with `as any`); the optional flags are
modelled with `Option`. -/
structure Ingredient where
  name : String
  role : String
  active : Option Bool := none
  allergenic : Option Bool := none
  controversial : Option (List String) := none
deriving DecidableEq, Repr

/-- Record `Product`. -/
structure Product where
  id : String
  name : String
  brand : String
  category : String
  inci : List Ingredient
  usage : String
  skinTypes : List String
  reviews : List Review
deriving DecidableEq, Repr

/-- JS `String.prototype.toLowerCase`, restricted to basic latin
(`Char.toLower` lowers `A`–`Z` only; all repository strings are covered). -/
def lowerStr (s : String) : String :=
  ⟨s.data.map Char.toLower⟩

/-- Whitespace recognised by `trim` (the repository only ever meets the
ASCII whitespace characters). -/
def isWhite (c : Char) : Bool :=
  c == ' ' || c == '\t' || c == '\n' || c == '\r'

/-- JS `String.prototype.trim`: drop leading and trailing whitespace. -/
def trimStr (s : String) : String :=
  ⟨(((s.data.dropWhile isWhite).reverse).dropWhile isWhite).reverse⟩

/-- Helper for `strIncludes`: does `sub` occur as a contiguous block of `s`? -/
def includesAux (sub : List Char) : List Char → Bool
  | [] => sub.isEmpty
  | c :: rest => sub.isPrefixOf (c :: rest) || includesAux sub rest

/-- JS `String.prototype.includes`: `strIncludes s sub` is `s.includes(sub)`. -/
def strIncludes (s sub : String) : Bool :=
  includesAux sub.data s.data

/-- Function `averageRating(reviews)` from the source: `0` for the empty list, else the
sum of the `rating` fields (a left fold starting at `0`) divided by the
length. -/
def averageRating (reviews : List Review) : ℚ :=
  if reviews.length = 0 then 0
  else (reviews.foldl (fun acc r => acc + r.rating) 0) / reviews.length

/-- The text clause of the filter predicate.  `q` is the already
trimmed-and-lowercased applied query, exactly as computed once per
derivation in the source (`const q = debouncedQuery.trim().toLowerCase()`). -/
def matchesText (q : String) (p : Product) : Bool :=
  q == "" ||
  strIncludes (lowerStr p.name) q ||
  strIncludes (lowerStr p.brand) q ||
  strIncludes (lowerStr p.category) q ||
  p.inci.any (fun ing => strIncludes (lowerStr ing.name) q)

/-- The category clause.  `cat` is the already lowercased selected category
(`const cat = category.toLowerCase()`); `"todas"` is the "all" sentinel. -/
def matchesCat (cat : String) (p : Product) : Bool :=
  cat == "todas" || lowerStr p.category == cat

/-- The rating clause: `averageRating(p.reviews) >= minRating`. -/
def matchesRating (minRating : ℚ) (p : Product) : Bool :=
  minRating ≤ averageRating p.reviews

/-- The conjunction of the three clauses, as in the `products.filter`
callback. -/
def productPred (q cat : String) (minRating : ℚ) (p : Product) : Bool :=
  matchesText q p && matchesCat cat p && matchesRating minRating p

/-- The sort relation induced by the comparator
`(a, b) => averageRating(b.reviews) - averageRating(a.reviews)`:
`a` may precede `b` iff the comparator is `≤ 0`, i.e. descending by average
rating. -/
def byRatingDesc (a b : Product) : Prop :=
  averageRating b.reviews ≤ averageRating a.reviews

instance : DecidableRel byRatingDesc :=
  fun _ _ => inferInstanceAs (Decidable (_ ≤ _))

instance : IsTotal Product byRatingDesc :=
  ⟨fun a b => le_total (averageRating b.reviews) (averageRating a.reviews)⟩

instance : IsTrans Product byRatingDesc :=
  ⟨fun _ _ _ h1 h2 => le_trans h2 h1⟩

/-- The `filtered` memo: trim and lowercase the applied query, lowercase the
selected category, filter the catalog by the three clauses, then sort the
fresh filtered array in place, descending by average rating (stable). -/
def filtered (query category : String) (minRating : ℚ)
    (products : List Product) : List Product :=
  let q := lowerStr (trimStr query)
  let cat := lowerStr category
  List.insertionSort byRatingDesc (products.filter (productPred q cat minRating))

/-- The `categories` memo: the distinct categories of the catalog in
first-seen order (JS `Set` preserves insertion order), with the `"todas"`
sentinel prepended.  `firstSeen` deduplicates keeping first occurrences. -/
def firstSeen (seen : List String) : List String → List String
  | [] => []
  | c :: rest =>
    if seen.contains c then firstSeen seen rest
    else c :: firstSeen (c :: seen) rest

/-- The `categories` memo of the source. -/
def categories (products : List Product) : List String :=
  "todas" :: firstSeen [] (products.map (·.category))

/-- The `focusedProduct` memo:
`products.find((p) => p.id === focusId) ?? null`.  With `focusId = null` the
strict equality is false for every product, so the result is `null`. -/
def focusedProduct (focusId : Option String) (products : List Product) :
    Option Product :=
  match focusId with
  | none => none
  | some i => products.find? (fun p => p.id == i)

/-- Function `roleLabel` from the source: a lookup table over the nine enumerated
roles with fallback `?? role` returning the argument itself. -/
def roleLabel (role : String) : String :=
  if role == "moisturizer" then "Hidratante"
  else if role == "antioxidant" then "Antioxidante"
  else if role == "preservative" then "Conservante"
  else if role == "sunscreen" then "Filtro solar"
  else if role == "fragrance" then "Fragrância"
  else if role == "humectant" then "Umectante"
  else if role == "emollient" then "Emoliente"
  else if role == "surfactant" then "Tensoativo"
  else if role == "exfoliant" then "Esfoliante"
  else role

/-- The nine roles enumerated by the TS `IngredientRole` union (and by the
`roleLabel` table). -/
def enumeratedRoles : List String :=
  ["moisturizer", "antioxidant", "preservative", "sunscreen", "fragrance",
   "humectant", "emollient", "surfactant", "exfoliant"]

/-- The rows of the INCI table in the detail modal: one row per ingredient,
in order, showing the name and the translated role label
(`product.inci.map`). -/
def inciTableRows (p : Product) : List (String × String) :=
  p.inci.map (fun ing => (ing.name, roleLabel ing.role))

/-- Pipeline stated from the spec's words, for comparison with `filtered`:
apply only the text and rating predicates (no category clause), then the
same stable sort. -/
def filteredNoCategory (query : String) (minRating : ℚ)
    (products : List Product) : List Product :=
  let q := lowerStr (trimStr query)
  List.insertionSort byRatingDesc
    (products.filter (fun p => matchesText q p && matchesRating minRating p))

/-- Pipeline stated from the spec's words, for comparison with `filtered`:
apply only the text and category predicates (no rating clause), then the
same stable sort. -/
def filteredNoRating (query category : String)
    (products : List Product) : List Product :=
  let q := lowerStr (trimStr query)
  let cat := lowerStr category
  List.insertionSort byRatingDesc
    (products.filter (fun p => matchesText q p && matchesCat cat p))

/-- Discrete-event model of the debounce in the source
(`useEffect` over `query`: `setTimeout(..., 250)`, cleanup `clearTimeout`).
Input: the raw query edits as (time in ms, value) events; `pending` is the
currently scheduled timer (deadline, value to apply).  Before each edit is
processed, a pending timer whose deadline has passed fires and applies its
value; each edit then cancels any pending timer and schedules a new one for
250ms later.  The result is the list of (time, value) applications that
actually reach `debouncedQuery`, i.e. that are ever used for filtering. -/
def debounceRun : List (Nat × String) → Option (Nat × String) → List (Nat × String)
  | [], pending =>
    match pending with
    | none => []
    | some (d, v) => [(d, v)]
  | (t, v) :: rest, pending =>
    match pending with
    | none => debounceRun rest (some (t + 250, v))
    | some (d, w) =>
      if d ≤ t then (d, w) :: debounceRun rest (some (t + 250, v))
      else debounceRun rest (some (t + 250, v))

/-- The debounce contract as the spec words it: an edit is applied (250ms
later) exactly when no further edit happens within 250ms; an edit followed
by another one within 250ms is superseded and never applied. -/
def debounceSpec : List (Nat × String) → List (Nat × String)
  | [] => []
  | [(t, v)] => [(t + 250, v)]
  | (t, v) :: (t2, v2) :: rest =>
    if t + 250 ≤ t2 then (t + 250, v) :: debounceSpec ((t2, v2) :: rest)
    else debounceSpec ((t2, v2) :: rest)

/-- Model of the relevant JS heap for the aliasing question of the
derivation: a store of product arrays addressed by index.  `deriveFiltered`
replays the `filtered` memo with explicit references: the seed array is read
from `seedRef`, `products.filter` allocates a fresh array, and
`list.sort(...)` mutates in place the array `list` refers to — which is the
fresh one, never the seed.  Returns the updated heap and the reference the
memo yields. -/
def deriveFiltered (query category : String) (minRating : ℚ)
    (heap : List (List Product)) (seedRef : Nat) :
    List (List Product) × Nat :=
  let ps := heap.getD seedRef []
  let q := lowerStr (trimStr query)
  let cat := lowerStr category
  let fresh := ps.filter (productPred q cat minRating)
  let heap1 := heap ++ [fresh]
  let r1 := heap.length
  let heap2 := heap1.set r1 (List.insertionSort byRatingDesc (heap1.getD r1 []))
  (heap2, r1)

/-- Fallback product value for `List.getD` in closed witness statements. -/
def dfl : Product :=
  { id := "", name := "", brand := "", category := "", inci := [],
    usage := "", skinTypes := [], reviews := [] }

/-- A product carrying an out-of-range (negative) review rating: the
`Review.rating` field is unvalidated, so such a value can occur. -/
def negProduct : Product :=
  { id := "neg", name := "Neg", brand := "B", category := "limpeza",
    inci := [], usage := "", skinTypes := [],
    reviews := [{ user := "u", rating := -1, comment := "c" }] }

/-- The seed catalog `MOCK_PRODUCTS`, transcribed from the source. -/
def MOCK_PRODUCTS : List Product :=
  [{ id := "p1",
     name := "Derma Glow Hidratante Facial",
     brand := "CosmoLab",
     category := "hidratante",
     inci :=
       [{ name := "Aqua", role := "solvent" },
        { name := "Glycerin", role := "humectant", active := some true },
        { name := "Sodium Hyaluronate (Hyaluronic Acid)", role := "humectant",
          active := some true },
        { name := "Caprylic/Capric Triglyceride", role := "emollient" },
        { name := "Phenoxyethanol", role := "preservative",
          controversial := some ["conservante sintético"] },
        { name := "Parfum (Fragrance)", role := "fragrance",
          allergenic := some true }],
     usage := "Aplicar de 1 a 2 pumps sobre a pele limpa, de manhã e à noite.\nReaplicar em áreas ressecadas quando necessário.",
     skinTypes := ["seca", "mista", "sensível"],
     reviews :=
       [{ user := "Ana P.", rating := 5,
          comment := "Deixou minha pele macia sem pesar." },
        { user := "Larissa", rating := 4,
          comment := "Hidrata bem, cheiro suave." }] },
   { id := "p2",
     name := "UV Defense Pro SPF 50",
     brand := "Solaris",
     category := "protetor solar",
     inci :=
       [{ name := "Aqua", role := "solvent" },
        { name := "Homosalate", role := "sunscreen", active := some true,
          controversial := some ["filtro químico"] },
        { name := "Octocrylene", role := "sunscreen", active := some true,
          controversial := some ["filtro químico"] },
        { name := "Butyl Methoxydibenzoylmethane (Avobenzone)",
          role := "sunscreen", active := some true },
        { name := "Silica", role := "emollient" },
        { name := "Phenoxyethanol", role := "preservative" }],
     usage := "Aplicar generosamente 15 minutos antes da exposição solar.\nReaplicar a cada 2 horas e após suor intenso, natação ou secar-se com toalha.",
     skinTypes := ["oleosa", "mista"],
     reviews :=
       [{ user := "Carlos", rating := 4,
          comment := "Textura leve e acabamento matte." },
        { user := "Bianca", rating := 3,
          comment := "Boa proteção, poderia ser menos perfumado." }] },
   { id := "p3",
     name := "Clean Foam Gel",
     brand := "PureSkin",
     category := "limpeza",
     inci :=
       [{ name := "Aqua", role := "solvent" },
        { name := "Cocamidopropyl Betaine", role := "surfactant" },
        { name := "Sodium Laureth Sulfate", role := "surfactant",
          controversial := some ["SLES"] },
        { name := "Aloe Barbadensis Leaf Juice", role := "moisturizer",
          active := some true },
        { name := "Parfum (Fragrance)", role := "fragrance",
          allergenic := some true }],
     usage := "Massagear sobre a pele úmida e enxaguar. Usar 1–2x ao dia.",
     skinTypes := ["oleosa", "mista"],
     reviews :=
       [{ user := "João", rating := 4,
          comment := "Lava bem e não repuxa." },
        { user := "Vivi", rating := 2,
          comment := "Achei um pouco agressivo para pele sensível." }] },
   { id := "p4",
     name := "Night Repair Serum",
     brand := "Reviva",
     category := "anti-idade",
     inci :=
       [{ name := "Aqua", role := "solvent" },
        { name := "Retinol", role := "antioxidant", active := some true,
          controversial := some ["fotossensível"] },
        { name := "Niacinamide", role := "antioxidant", active := some true },
        { name := "Squalane", role := "emollient" },
        { name := "Phenoxyethanol", role := "preservative" }],
     usage := "Aplicar à noite sobre a pele limpa. Iniciar 2–3x/semana e aumentar conforme tolerância. Usar protetor solar durante o dia.",
     skinTypes := ["mista", "normal"],
     reviews :=
       [{ user := "Priscila", rating := 5,
          comment := "Pele mais viçosa após 3 semanas." },
        { user := "Renata", rating := 4,
          comment := "Textura ótima, sem irritar." }] },
   { id := "p5",
     name := "Hydra Calm Creme",
     brand := "Dermasoft",
     category := "hidratante",
     inci :=
       [{ name := "Aqua", role := "solvent" },
        { name := "Ceramide NP", role := "moisturizer", active := some true },
        { name := "Shea Butter (Butyrospermum Parkii)", role := "emollient" },
        { name := "Allantoin", role := "moisturizer" },
        { name := "Methylparaben", role := "preservative",
          controversial := some ["parabeno"] }],
     usage := "Aplicar no rosto e pescoço após a limpeza, de manhã e à noite.",
     skinTypes := ["seca", "sensível"],
     reviews :=
       [{ user := "Luca", rating := 4,
          comment := "Calmou bastante a vermelhidão." },
        { user := "Bia", rating := 5,
          comment := "Muito nutritivo, rende bem." }] },
   { id := "p6",
     name := "AHA 8% Peeling Solution",
     brand := "SkinTune",
     category := "tratamento",
     inci :=
       [{ name := "Aqua", role := "solvent" },
        { name := "Glycolic Acid", role := "exfoliant", active := some true,
          controversial := some ["ácido AHA"] },
        { name := "Propylene Glycol", role := "humectant" },
        { name := "Panthenol", role := "moisturizer" },
        { name := "Phenoxyethanol", role := "preservative" }],
     usage := "Aplicar à noite 1–2x/semana por até 10 minutos. Enxaguar. Usar protetor solar no dia seguinte.",
     skinTypes := ["mista", "oleosa"],
     reviews :=
       [{ user := "Marcos", rating := 3,
          comment := "Esfolia bem, sensação de ardor leve." },
        { user := "Keyla", rating := 4,
          comment := "Pele mais lisa após 1 mês." }] }]

/-! Helper lemmas shared by several results. -/

theorem foldl_ratings (reviews : List Review) (a : ℚ) :
    reviews.foldl (fun acc r => acc + r.rating) a =
      a + (reviews.map Review.rating).sum := by
  induction reviews generalizing a with
  | nil => simp
  | cons r rest ih => simp [List.foldl_cons, ih, add_assoc]

theorem lowerStr_eq_empty (s : String) : lowerStr s = "" ↔ s = "" := by
  cases s with
  | mk data =>
    simp [lowerStr, String.ext_iff]

/-- C1: `averageRating` returns `0` on the empty review list, and otherwise
the arithmetic mean — the sum of the `rating` fields divided by the number
of reviews. -/
theorem averageRating_spec (reviews : List Review) :
    (reviews = [] → averageRating reviews = 0) ∧
    (reviews ≠ [] → averageRating reviews =
      (reviews.map Review.rating).sum / reviews.length) := by
  constructor
  · rintro rfl
    rfl
  · intro h
    have hlen : reviews.length ≠ 0 := by simpa using h
    simp [averageRating, hlen, foldl_ratings]

/-- Witness for C1 at concrete inputs: the empty list and the review list
of the first seed product. -/
theorem averageRating_spec_witness :
    averageRating [] = 0 ∧
    averageRating
      [{ user := "Ana P.", rating := 5, comment := "a" },
       { user := "Larissa", rating := 4, comment := "b" }] = 9 / 2 := by
  refine ⟨(averageRating_spec []).1 rfl, ?_⟩
  rw [(averageRating_spec _).2 (by simp)]
  norm_num

/-- C2: with the applied query processed as in the source
(trimmed, then lowercased), the text predicate always holds when the query
is empty after trimming, and otherwise holds exactly when the processed
query is a substring of the lowercased product name, brand, or category, or
of the lowercased name of some ingredient of the product. -/
theorem textFilter_spec (query : String) (p : Product) :
    (trimStr query = "" → matchesText (lowerStr (trimStr query)) p = true) ∧
    (trimStr query ≠ "" →
      (matchesText (lowerStr (trimStr query)) p = true ↔
        strIncludes (lowerStr p.name) (lowerStr (trimStr query)) = true ∨
        strIncludes (lowerStr p.brand) (lowerStr (trimStr query)) = true ∨
        strIncludes (lowerStr p.category) (lowerStr (trimStr query)) = true ∨
        ∃ ing ∈ p.inci,
          strIncludes (lowerStr ing.name) (lowerStr (trimStr query)) = true)) := by
  constructor
  · intro h
    simp [matchesText, h, lowerStr]
  · intro h
    have hq : ¬ lowerStr (trimStr query) = "" := fun hc => h ((lowerStr_eq_empty _).1 hc)
    simp [matchesText, hq, or_assoc]

/-- Witness for C2: the all-whitespace query `" "` matches the trivial
product, and the query `"Glow"` matches the first seed product through its
name. -/
theorem textFilter_spec_witness :
    matchesText (lowerStr (trimStr " ")) dfl = true ∧
    matchesText (lowerStr (trimStr "Glow")) (MOCK_PRODUCTS.getD 0 dfl) = true := by
  constructor
  · exact (textFilter_spec " " dfl).1 (by decide)
  · exact ((textFilter_spec "Glow" _).2 (by decide)).mpr (Or.inl (by decide))

/-- C3: the category predicate holds exactly when the selected category is
the `"todas"` sentinel (compared after lowercasing, hence
case-insensitively) or equals the product category case-insensitively; and
filtering with the sentinel selected is the same pipeline as text and
rating filtering alone. -/
theorem categoryFilter_spec :
    (∀ (selected : String) (p : Product),
        matchesCat (lowerStr selected) p = true ↔
          (lowerStr selected = "todas" ∨
           lowerStr selected = lowerStr p.category)) ∧
    (∀ (query : String) (minRating : ℚ) (products : List Product),
        filtered query "todas" minRating products =
          filteredNoCategory query minRating products) := by
  constructor
  · intro selected p
    simp only [matchesCat, Bool.or_eq_true, beq_iff_eq]
    exact or_congr Iff.rfl eq_comm
  · intro query minRating products
    have hl : lowerStr "todas" = "todas" := by decide
    simp only [filtered, filteredNoCategory, hl]
    congr 1
    apply List.filter_congr
    intro p _
    simp [productPred, matchesCat, Bool.and_true]

/-- C4: the derived list is sorted non-increasing by average rating, and
stably so: for every rating value `v`, the subsequence of derived products
with average rating `v` occurs in the same relative order as in the
unfiltered catalog (it is a sublist of the catalog). -/
theorem filtered_sorted_stable (query category : String) (minRating : ℚ)
    (products : List Product) :
    List.Sorted byRatingDesc (filtered query category minRating products) ∧
    ∀ v : ℚ,
      List.Sublist
        ((filtered query category minRating products).filter
          (fun p => decide (averageRating p.reviews = v)))
        products := by
  constructor
  · exact List.sorted_insertionSort byRatingDesc _
  · intro v
    have h1 : filtered query category minRating products =
        List.insertionSort byRatingDesc
          (products.filter
            (productPred (lowerStr (trimStr query)) (lowerStr category) minRating)) := rfl
    set keyP : Product → Bool := fun p => decide (averageRating p.reviews = v) with hkey
    set l : List Product :=
      products.filter
        (productPred (lowerStr (trimStr query)) (lowerStr category) minRating) with hldef
    have hmemkey : ∀ p ∈ l.filter keyP, averageRating p.reviews = v := by
      intro p hp
      have := List.of_mem_filter hp
      simpa [hkey] using this
    have hpw : (l.filter keyP).Pairwise byRatingDesc := by
      apply List.pairwise_of_forall_mem_list
      intro a ha b hb
      show averageRating b.reviews ≤ averageRating a.reviews
      rw [hmemkey a ha, hmemkey b hb]
    have hsub : List.Sublist (l.filter keyP) (List.insertionSort byRatingDesc l) :=
      List.sublist_insertionSort hpw (List.filter_sublist l)
    have hsub2 : List.Sublist ((l.filter keyP).filter keyP)
        ((List.insertionSort byRatingDesc l).filter keyP) := hsub.filter keyP
    have hidem : (l.filter keyP).filter keyP = l.filter keyP :=
      List.filter_eq_self.mpr (fun a ha => List.of_mem_filter ha)
    rw [hidem] at hsub2
    have hperm : List.Perm ((List.insertionSort byRatingDesc l).filter keyP)
        (l.filter keyP) :=
      (List.perm_insertionSort byRatingDesc l).filter keyP
    have heq : l.filter keyP = (List.insertionSort byRatingDesc l).filter keyP :=
      hsub2.eq_of_length hperm.length_eq.symm
    rw [h1, ← heq]
    exact (List.filter_sublist l).trans (List.filter_sublist products)

/-- Refutation of C5 as stated: review ratings are unvalidated, so an
out-of-range negative rating makes the average negative, and the product is
then excluded at minimum-rating threshold `0`; the derived list differs
from text-and-category-only filtering. -/
theorem minRatingZero_counterexample :
    filtered "" "todas" 0 [negProduct] = [] ∧
    filteredNoRating "" "todas" [negProduct] = [negProduct] := by
  have hr : matchesRating 0 negProduct = false := by
    simp only [matchesRating, negProduct, averageRating]
    norm_num
  have hpred : productPred (lowerStr (trimStr "")) (lowerStr "todas") 0 negProduct = false := by
    simp [productPred, hr]
  have htc : (matchesText (lowerStr (trimStr "")) negProduct &&
      matchesCat (lowerStr "todas") negProduct) = true := by decide
  constructor
  · simp [filtered, List.filter_cons, hpred, List.insertionSort]
  · simp [filteredNoRating, List.filter_cons, htc, List.insertionSort,
      List.orderedInsert]

/-- C5 amended: over catalogs whose review ratings are all nonnegative (in
particular ratings in the expected 1–5 range), filtering with
minimum-rating threshold `0` excludes no product on rating grounds: the
derivation equals the text-and-category-only pipeline. -/
theorem minRatingZero_spec (query category : String) (products : List Product)
    (h : ∀ p ∈ products, ∀ r ∈ p.reviews, 0 ≤ r.rating) :
    filtered query category 0 products =
      filteredNoRating query category products := by
  simp only [filtered, filteredNoRating]
  congr 1
  apply List.filter_congr
  intro p hp
  have havg : 0 ≤ averageRating p.reviews := by
    unfold averageRating
    split
    · exact le_refl 0
    · apply div_nonneg
      · rw [foldl_ratings, zero_add]
        apply List.sum_nonneg
        intro x hx
        obtain ⟨r, hr, rfl⟩ := List.mem_map.1 hx
        exact h p hp r hr
      · exact Nat.cast_nonneg _
  have hrt : matchesRating 0 p = true := by
    simp [matchesRating, havg]
  simp [productPred, hrt, Bool.and_true]

/-- Witness for the amended C5 at the seed catalog (all its ratings are in
range) with an empty query and the sentinel category. -/
theorem minRatingZero_spec_witness :
    filtered "" "todas" 0 MOCK_PRODUCTS =
      filteredNoRating "" "todas" MOCK_PRODUCTS := by
  apply minRatingZero_spec
  intro p hp r hr
  fin_cases hp <;> fin_cases hr <;> norm_num

/-- C6: over the seed catalog, with an empty applied query, selected
category `"hidratante"` and minimum rating `4`, the derived list is exactly
the products `p1` then `p5` (both average `4.5`; the tie keeps catalog
order). -/
theorem scenario_hidratante4 :
    (filtered "" "hidratante" 4 MOCK_PRODUCTS).map (·.id) = ["p1", "p5"] := by
  simp only [filtered, MOCK_PRODUCTS, productPred, matchesText, matchesCat,
    matchesRating, averageRating, lowerStr, trimStr, strIncludes,
    includesAux, isWhite, byRatingDesc, List.insertionSort,
    List.orderedInsert, List.filter, List.foldl, List.map]
  norm_num [byRatingDesc, averageRating, List.foldl]

/-- C7: resolving the focus id yields `none` when the id is unset, `none`
(without any error value) when no catalog product carries the id, and the
unique product with the id when ids are pairwise distinct and one exists. -/
theorem focusedProduct_spec (focusId : Option String) (products : List Product) :
    (focusId = none → focusedProduct focusId products = none) ∧
    (∀ i, focusId = some i → (∀ p ∈ products, p.id ≠ i) →
        focusedProduct focusId products = none) ∧
    (∀ i p, focusId = some i →
        List.Pairwise (fun a b => a.id ≠ b.id) products →
        p ∈ products → p.id = i →
        focusedProduct focusId products = some p) := by
  refine ⟨?_, ?_, ?_⟩
  · rintro rfl
    rfl
  · rintro i rfl h
    simp only [focusedProduct]
    rw [List.find?_eq_none]
    intro x hx
    simpa using h x hx
  · rintro i p rfl hpw hp hid
    simp only [focusedProduct]
    induction products with
    | nil => cases hp
    | cons a rest ih =>
      rcases List.mem_cons.1 hp with rfl | hmem
      · exact List.find?_cons_of_pos _ (by simpa using hid)
      · have hane : ¬ (a.id == i) = true := by
          simp only [beq_iff_eq]
          intro hai
          exact (List.pairwise_cons.1 hpw).1 p hmem (hai.trans hid.symm)
        have hstep : List.find? (fun p => p.id == i) (a :: rest) =
            List.find? (fun p => p.id == i) rest :=
          List.find?_cons_of_neg rest hane
        rw [hstep]
        exact ih (List.pairwise_cons.1 hpw).2 hmem

/-- Witness for C7 over the seed catalog: unset id, an id absent from the
catalog, and the id `"p3"` resolving to the third product. -/
theorem focusedProduct_spec_witness :
    focusedProduct none MOCK_PRODUCTS = none ∧
    focusedProduct (some "p9") MOCK_PRODUCTS = none ∧
    focusedProduct (some "p3") MOCK_PRODUCTS = some (MOCK_PRODUCTS.getD 2 dfl) :=
  ⟨(focusedProduct_spec none MOCK_PRODUCTS).1 rfl,
   (focusedProduct_spec (some "p9") MOCK_PRODUCTS).2.1 "p9" rfl (by decide),
   (focusedProduct_spec (some "p3") MOCK_PRODUCTS).2.2 "p3"
     (MOCK_PRODUCTS.getD 2 dfl) rfl (by decide) (by decide) (by decide)⟩

/-- Key step for C8: running the debounce machine with a pending timer
scheduled by an edit at time `t` for value `v` yields exactly the applies
the spec-side characterisation assigns to the trace starting with that
edit. -/
theorem debounceRun_pending (events : List (Nat × String)) :
    ∀ t v, debounceRun events (some (t + 250, v)) = debounceSpec ((t, v) :: events) := by
  induction events with
  | nil =>
    intro t v
    rfl
  | cons e rest ih =>
    intro t v
    obtain ⟨t2, v2⟩ := e
    simp only [debounceRun, debounceSpec]
    by_cases h : t + 250 ≤ t2
    · rw [if_pos h, if_pos h, ih]
    · rw [if_neg h, if_neg h, ih]

/-- C8: a query edit is applied to filtering exactly when 250ms pass with
no further edit (each new edit cancels the pending timer), and in the
concrete trace "a", "ab", "abc" at 0ms, 100ms, 200ms the only value ever
applied is "abc" (at 450ms); no superseded intermediate value is ever
applied. -/
theorem debounce_spec :
    (∀ events : List (Nat × String),
        debounceRun events none = debounceSpec events) ∧
    debounceRun [(0, "a"), (100, "ab"), (200, "abc")] none = [(450, "abc")] := by
  constructor
  · intro events
    cases events with
    | nil => rfl
    | cons e rest =>
      obtain ⟨t, v⟩ := e
      exact debounceRun_pending rest t v
  · rfl

/-- C9: replayed on the explicit heap, the derivation leaves the seed array
untouched (same elements in the same order, hence every product, ingredient
list and review list unchanged), returns a reference distinct from the
seed's — the in-place sort runs on the fresh array `filter` produced — and
that fresh reference holds exactly the filtered/sorted view of the seed
list. -/
theorem derive_no_mutation (query category : String) (minRating : ℚ)
    (heap : List (List Product)) (seedRef : Nat) (h : seedRef < heap.length) :
    ((deriveFiltered query category minRating heap seedRef).1).getD seedRef [] =
        heap.getD seedRef [] ∧
    (deriveFiltered query category minRating heap seedRef).2 ≠ seedRef ∧
    ((deriveFiltered query category minRating heap seedRef).1).getD
        ((deriveFiltered query category minRating heap seedRef).2) [] =
      filtered query category minRating (heap.getD seedRef []) := by
  have hne : seedRef ≠ heap.length := Nat.ne_of_lt h
  refine ⟨?_, ?_, ?_⟩
  · simp only [deriveFiltered, List.getD_eq_getElem?_getD]
    rw [List.getElem?_set_ne (fun he => hne he.symm)]
    rw [List.getElem?_append_left h]
  · simp only [deriveFiltered]
    exact fun he => hne he.symm
  · simp only [deriveFiltered, List.getD_eq_getElem?_getD]
    rw [List.getElem?_set_self (by simp)]
    simp [List.getElem?_concat_length, filtered]

/-- Witness for C9: a heap holding the seed catalog alone, derived with the
no-op filter state. -/
theorem derive_no_mutation_witness :
    ((deriveFiltered "" "todas" 0 [MOCK_PRODUCTS] 0).1).getD 0 [] =
        [MOCK_PRODUCTS].getD 0 [] ∧
    (deriveFiltered "" "todas" 0 [MOCK_PRODUCTS] 0).2 ≠ 0 ∧
    ((deriveFiltered "" "todas" 0 [MOCK_PRODUCTS] 0).1).getD
        ((deriveFiltered "" "todas" 0 [MOCK_PRODUCTS] 0).2) [] =
      filtered "" "todas" 0 ([MOCK_PRODUCTS].getD 0 []) :=
  derive_no_mutation "" "todas" 0 [MOCK_PRODUCTS] 0 (by decide)

/-- C10: a role string outside the nine enumerated roles is returned
unchanged by `roleLabel`; ingredients with such roles are never dropped:
each one still yields its row in the INCI table, and its name still
participates in text-search matching (a query matching the name makes the
text predicate hold). -/
theorem roleLabel_fallback :
    (∀ role : String, role ∉ enumeratedRoles → roleLabel role = role) ∧
    (∀ p : Product, ∀ ing ∈ p.inci,
        (ing.name, roleLabel ing.role) ∈ inciTableRows p) ∧
    (∀ (q : String) (p : Product), ∀ ing ∈ p.inci,
        strIncludes (lowerStr ing.name) q = true → matchesText q p = true) := by
  refine ⟨?_, ?_, ?_⟩
  · intro role hrole
    simp only [enumeratedRoles, List.mem_cons, List.not_mem_nil, or_false,
      not_or] at hrole
    obtain ⟨h1, h2, h3, h4, h5, h6, h7, h8, h9⟩ := hrole
    simp [roleLabel, h1, h2, h3, h4, h5, h6, h7, h8, h9]
  · intro p ing hing
    exact List.mem_map_of_mem _ hing
  · intro q p ing hing hsub
    simp only [matchesText, Bool.or_eq_true]
    refine Or.inr ?_
    simp only [List.any_eq_true]
    exact ⟨ing, hing, hsub⟩

/-- Witness for C10 at the `"solvent"` tag of the seed data: the label
falls back to the tag itself, the Aqua ingredient keeps its table row in
the first seed product, and the query `"aqua"` text-matches that product
through the ingredient name. -/
theorem roleLabel_fallback_witness :
    roleLabel "solvent" = "solvent" ∧
    ("Aqua", roleLabel "solvent") ∈ inciTableRows (MOCK_PRODUCTS.getD 0 dfl) ∧
    matchesText "aqua" (MOCK_PRODUCTS.getD 0 dfl) = true :=
  ⟨roleLabel_fallback.1 "solvent" (by decide),
   roleLabel_fallback.2.1 (MOCK_PRODUCTS.getD 0 dfl)
     { name := "Aqua", role := "solvent" } (by decide),
   roleLabel_fallback.2.2 "aqua" (MOCK_PRODUCTS.getD 0 dfl)
     { name := "Aqua", role := "solvent" } (by decide) (by decide)⟩

end CosmoScan
